import Mathlib

/-!
Verification of the manuscript-ingestion pipeline (src/main.py) against its
design document.

The embedding is a shallow one over `List Char` (Python `str`) and `List Nat`
(Python `bytes`).  Each `_`-prefixed definition translates the Python function
of the same name; `spec…` definitions are written from the design document's
words and compared with the code-side definitions.  Case folding, the
word-character class of the regex `\b` boundary, and the `isupper` test are
modelled over the ASCII range (the inputs the claims quantify over are
code-point sequences; the Unicode tables themselves are not re-embedded).
-/

/-- Python `str` as a sequence of code points. -/
abbrev Str := List Char

/-- Python `bytes` as a sequence of byte values. -/
abbrev Bytes := List Nat

/-- String literal helper: the code points of a Lean string literal. -/
def str (s : String) : Str := s.data

/-- Python `str.isspace` / the whitespace class of `str.split()` and
`str.strip()`: ASCII whitespace, the C1 separators and the Unicode
space-separator code points recognised by CPython. -/
def pyIsSpace (c : Char) : Bool :=
  let n := c.toNat
  (0x09 ≤ n && n ≤ 0x0d) || n == 0x20 || (0x1c ≤ n && n ≤ 0x1f) ||
    n == 0x85 || n == 0xa0 || n == 0x1680 || (0x2000 ≤ n && n ≤ 0x200a) ||
    n == 0x2028 || n == 0x2029 || n == 0x202f || n == 0x205f || n == 0x3000

/-- The line boundaries of Python `str.splitlines` (plus the pair `\r\n`,
handled in `splitLines` itself). -/
def isLineBreakChar (c : Char) : Bool :=
  let n := c.toNat
  (0x0a ≤ n && n ≤ 0x0d) || (0x1c ≤ n && n ≤ 0x1e) || n == 0x85 ||
    n == 0x2028 || n == 0x2029

/-- Python `str.lower`, over the ASCII range. -/
def pyLower (s : Str) : Str := s.map Char.toLower

/-- Python `str.strip()`: drop whitespace from both ends. -/
def pyStrip (s : Str) : Str :=
  ((s.dropWhile pyIsSpace).reverse.dropWhile pyIsSpace).reverse

/-- Python `str.split()` (no separator): maximal runs of non-whitespace. -/
def pyWords : Str → List Str
  | [] => []
  | c :: rest =>
    if pyIsSpace c then pyWords rest
    else
      match rest with
      | [] => [[c]]
      | r :: _ =>
        if pyIsSpace r then [c] :: pyWords rest
        else
          match pyWords rest with
          | [] => [[c]]          -- unreachable: `rest` starts with a non-space
          | w :: ws => (c :: w) :: ws

/-- Python `" ".join`. -/
def joinSpace : List Str → Str
  | [] => []
  | [w] => w
  | w :: ws => w ++ ' ' :: joinSpace ws

/-- Python `"\n\n".join`. -/
def joinBlank : List Str → Str
  | [] => []
  | [w] => w
  | w :: ws => w ++ '\n' :: '\n' :: joinBlank ws

/-- Python `str.splitlines()` (without keepends): `\r\n` counts as one
boundary and a trailing boundary opens no empty final line. -/
def splitLines : Str → List Str
  | [] => []
  | '\r' :: '\n' :: cs => [] :: splitLines cs
  | c :: cs =>
    if isLineBreakChar c then [] :: splitLines cs
    else
      match splitLines cs with
      | [] => [[c]]
      | l :: ls => (c :: l) :: ls

/-- Python `needle in hay` on strings. -/
def strContains (hay needle : Str) : Bool :=
  match hay with
  | [] => needle.isEmpty
  | c :: t => needle.isPrefixOf (c :: t) || strContains t needle

/-- Python `hay.endswith(suffix)`. -/
def strEndsWith (hay suffix : Str) : Bool := suffix.isSuffixOf hay

/-! ## Format detection (`_infer_format`, src/main.py lines 85-99) -/

/-- Python truthiness of an `Optional[str]`: `if hint:` is true exactly for a
present, non-empty string. -/
def hintTruthy : Option Str → Bool
  | none => false
  | some h => !h.isEmpty

/-- `_infer_format(url, hint)` of src/main.py. -/
def _infer_format (url : Str) (hint : Option Str) : Str :=
  if hintTruthy hint then pyLower (hint.getD [])
  else
    let url_l := pyLower url
    if strContains url_l (str ".docx") then str "docx"
    else if strContains url_l (str "/export?format=docx") then str "docx"
    else if strEndsWith url_l (str ".pdf") || strContains url_l (str "format=pdf") then
      str "pdf"
    else if strEndsWith url_l (str ".epub") then str "epub"
    else if strEndsWith url_l (str ".md") ||
        strContains url_l (str "raw.githubusercontent.com") then str "md"
    else str "docx"

/-! ## TOC heuristic (`_extract_toc_from_text`, src/main.py lines 141-159) -/

/-- Python `str.isupper` over the ASCII range: at least one cased character
and no cased character in lower case. -/
def pyIsUpper (s : Str) : Bool :=
  s.any (fun c => c.isAlpha) && s.all (fun c => !c.isAlpha || c.isUpper)

/-- A word character of the regex `\b` boundary (ASCII range). -/
def isWordChar (c : Char) : Bool := c.isAlphanum || c == '_'

/-- `keyword` matched at the start of `low` and followed by a `\b` boundary:
either the end of the line or a non-word character. -/
def hasWordStart (low : Str) (keyword : Str) : Bool :=
  keyword.isPrefixOf low &&
    match low.drop keyword.length with
    | [] => true
    | c :: _ => !isWordChar c

/-- The regex test `re.match(r"^(chapter|part|section)\b", l.lower())`. -/
def matchesHeadingKeyword (l : Str) : Bool :=
  let low := pyLower l
  hasWordStart low (str "chapter") || hasWordStart low (str "part") ||
    hasWordStart low (str "section")

/-- Python `l.endswith(('.', '!', '?'))`. -/
def endsInSentencePunct (l : Str) : Bool :=
  match l.getLast? with
  | some c => c == '.' || c == '!' || c == '?'
  | none => false

/-- The two nested conditions of the scan loop combined: a line is appended
iff `len(l) <= 80 and (l.isupper() or re.match(...) or len(l.split()) <= 6)`
and then `len(l) >= 3 and not l.endswith(('.', '!', '?'))`. -/
def tocQualifies (l : Str) : Bool :=
  (decide (l.length ≤ 80) &&
      (pyIsUpper l || matchesHeadingKeyword l || decide ((pyWords l).length ≤ 6))) &&
    (decide (3 ≤ l.length) && !endsInSentencePunct l)

/-- The scan loop over the (at most 800) lines with its early `break`: `k` is
the number of further lines the loop may still collect (30 at entry; the
Python loop breaks as soon as `len(toc) >= 30`). -/
def tocScanP (p : Str → Bool) : List Str → Nat → List Str
  | _, 0 => []
  | [], _ => []
  | l :: ls, k + 1 => if p l then l :: tocScanP p ls k else tocScanP p ls (k + 1)

/-- `[l.strip() for l in full_text.splitlines() if l.strip()]`. -/
def tocLines (t : Str) : List Str :=
  ((splitLines t).map pyStrip).filter (fun l => !l.isEmpty)

/-- The collected heading-like lines before deduplication and truncation. -/
def tocCandidates (t : Str) : List Str :=
  tocScanP tocQualifies ((tocLines t).take 800) 30

/-- The `seen`-set deduplication loop: keep the first occurrence of each
string. -/
def dedupFirst (seen : List Str) : List Str → List Str
  | [] => []
  | h :: t => if h ∈ seen then dedupFirst seen t else h :: dedupFirst (h :: seen) t

/-- `_extract_toc_from_text(full_text)` of src/main.py. -/
def _extract_toc_from_text (t : Str) : List Str :=
  (dedupFirst [] (tocCandidates t)).take 20

/-! ## Sample builder (`_make_sample`, src/main.py lines 162-166) -/

/-- `_make_sample(full_text)` of src/main.py: `" ".join(full_text.split()[:1200]).strip()`. -/
def _make_sample (t : Str) : Str :=
  pyStrip (joinSpace ((pyWords t).take 1200))

/-! ## Markdown extraction (`_extract_md`, src/main.py lines 137-138)

`bytes.decode("utf-8", errors=...)`: a faithful UTF-8 decoder.  An
ill-formed subsequence is consumed up to its maximal subpart (as CPython's
incremental decoder does) and `sub` is emitted in its place: `sub = []`
models `errors="ignore"`, `sub = [U+FFFD]` models `errors="replace"`. -/

/-- A UTF-8 continuation byte. -/
def isCont (b : Nat) : Bool := 0x80 ≤ b && b ≤ 0xbf

/-- The second byte admitted after a three-byte leader `b` (excludes overlong
encodings after `0xE0` and surrogates after `0xED`). -/
def cont3Ok (b b2 : Nat) : Bool :=
  if b == 0xe0 then 0xa0 ≤ b2 && b2 ≤ 0xbf
  else if b == 0xed then 0x80 ≤ b2 && b2 ≤ 0x9f
  else isCont b2

/-- The second byte admitted after a four-byte leader `b` (excludes overlong
encodings after `0xF0` and code points past `U+10FFFF` after `0xF4`). -/
def cont4Ok (b b2 : Nat) : Bool :=
  if b == 0xf0 then 0x90 ≤ b2 && b2 ≤ 0xbf
  else if b == 0xf4 then 0x80 ≤ b2 && b2 ≤ 0x8f
  else isCont b2

/-- UTF-8 decoding with `sub` emitted for each maximal ill-formed subpart. -/
def decodeWith (sub : Str) : Bytes → Str
  | [] => []
  | b :: bs =>
    if b ≤ 0x7f then Char.ofNat b :: decodeWith sub bs
    else if b < 0xc2 then sub ++ decodeWith sub bs
    else if b ≤ 0xdf then
      match bs with
      | [] => sub
      | b2 :: bs2 =>
        if isCont b2 then Char.ofNat ((b - 0xc0) * 0x40 + (b2 - 0x80)) :: decodeWith sub bs2
        else sub ++ decodeWith sub (b2 :: bs2)
    else if b ≤ 0xef then
      match bs with
      | [] => sub
      | b2 :: bs2 =>
        if cont3Ok b b2 then
          match bs2 with
          | [] => sub
          | b3 :: bs3 =>
            if isCont b3 then
              Char.ofNat ((b - 0xe0) * 0x1000 + (b2 - 0x80) * 0x40 + (b3 - 0x80)) ::
                decodeWith sub bs3
            else sub ++ decodeWith sub (b3 :: bs3)
        else sub ++ decodeWith sub (b2 :: bs2)
    else if b ≤ 0xf4 then
      match bs with
      | [] => sub
      | b2 :: bs2 =>
        if cont4Ok b b2 then
          match bs2 with
          | [] => sub
          | b3 :: bs3 =>
            if isCont b3 then
              match bs3 with
              | [] => sub
              | b4 :: bs4 =>
                if isCont b4 then
                  Char.ofNat ((b - 0xf0) * 0x40000 + (b2 - 0x80) * 0x1000 +
                      (b3 - 0x80) * 0x40 + (b4 - 0x80)) :: decodeWith sub bs4
                else sub ++ decodeWith sub (b4 :: bs4)
            else sub ++ decodeWith sub (b3 :: bs3)
        else sub ++ decodeWith sub (b2 :: bs2)
    else sub ++ decodeWith sub bs

/-- `_extract_md(file_bytes)` of src/main.py:
`file_bytes.decode("utf-8", errors="ignore")`. -/
def _extract_md (bs : Bytes) : Str := decodeWith [] bs

/-- Modelled from the claim's words: the same decoding with the lossy
strategy that REPLACES each invalid byte sequence (`errors="replace"`),
emitting U+FFFD for each maximal ill-formed subpart. -/
def specDecodeReplace (bs : Bytes) : Str := decodeWith [Char.ofNat 0xfffd] bs

/-! ## PDF extraction (`_extract_pdf`, src/main.py lines 113-122)

The page loop is embedded over the outcomes the pypdf reader delivers for
each page: `.ok (some t)` for `extract_text()` returning text `t`,
`.ok none` for it returning `None` (the `or ""` supplies the empty string),
`.error e` for it raising (the `except Exception: continue`). -/

/-- One page's `extract_text()` outcome. -/
abbrev PageOutcome := Except String (Option Str)

/-- The `texts` list built by the loop body: a successful page appends
`extract_text() or ""`, a raising page appends nothing (`continue`). -/
def pdfPageTexts : List PageOutcome → List Str
  | [] => []
  | .ok t :: rest => t.getD [] :: pdfPageTexts rest
  | .error _ :: rest => pdfPageTexts rest

/-- `_extract_pdf` of src/main.py as a function of the per-page outcomes:
`for page in reader.pages[:50]: ...` then `"\n\n".join(texts)`. -/
def _extract_pdf (pages : List PageOutcome) : Str :=
  joinBlank (pdfPageTexts (pages.take 50))

/-- Modelled from the claim's words: a failing page "contributes an empty
string to the result", per-page texts joined by a blank line, first 50 pages
only. -/
def specPdfEmptyContribution (pages : List PageOutcome) : Str :=
  joinBlank ((pages.take 50).map fun p =>
    match p with
    | .ok t => t.getD []
    | .error _ => [])

/-- The amended behaviour: a failing page is skipped, contributing nothing;
the texts of the successfully read pages (among the first 50) are joined by
a blank line. -/
def specPdfSkipFailed (pages : List PageOutcome) : Str :=
  joinBlank ((pages.take 50).filterMap fun p =>
    match p with
    | .ok t => some (t.getD [])
    | .error _ => none)

/-- The page outcomes separating the claim's empty-string contribution from
the code's skip: a readable page, a failing page, a readable page. -/
def pdfCexPages : List PageOutcome :=
  [.ok (some (str "a")), .error "page decode failed", .ok (some (str "b"))]

/-! ## Orchestrator (`ingest_manuscript`, src/main.py lines 168-216)

The endpoint is embedded as a function of the request and of an environment
holding the external collaborators: the HTTP fetch, the three
library-backed extractors (python-docx, the pypdf page reader, ebooklib)
and the persistence `create`.  The markdown extractor is concrete
(`_extract_md` above).  Each `raise HTTPException` site is modelled by one
constructor of `PipeError`. -/

/-- The request body of `POST /api/ingest` (`IngestRequest`). -/
structure IngestReq where
  source_url : Str
  format : Option Str
  cover_url : Option Str
  title : Option Str
  subtitle : Option Str
deriving DecidableEq

/-- The persisted `Manuscript` record. -/
structure Manuscript where
  source_url : Str
  format : Str
  title : Option Str
  subtitle : Option Str
  cover_url : Option Str
  toc : Option (List Str)
  sample_text : Option Str
  word_count : Nat
deriving DecidableEq

/-- The classified pipeline failures, one per `raise HTTPException` site of
`ingest_manuscript` (detail texts are carried but no claim depends on them). -/
inductive PipeError where
  | fetchError (detail : String)
  | unsupportedFormat (fmt : Str)
  | extractionError (fmt : Str) (detail : String)
  | persistError (detail : String)
deriving DecidableEq

/-- The HTTP status each classified failure is returned with. -/
def PipeError.status : PipeError → Nat
  | .fetchError _ => 400
  | .unsupportedFormat _ => 400
  | .extractionError _ _ => 500
  | .persistError _ => 500

/-- The 200 response body `{status: "ok", id, format, word_count, toc[:10]}`. -/
structure IngestResp where
  id : String
  format : Str
  word_count : Nat
  toc : List Str
deriving DecidableEq

/-- The external collaborators.  `fetch` yields a transport failure or a
status code and body; the `extract…` fields yield what the library call
would return or the exception it would raise; `create` yields the new
document id or the store failure. -/
structure Env where
  fetch : Str → Except String (Nat × Bytes)
  extractDocx : Bytes → Except String Str
  pdfPages : Bytes → Except String (List PageOutcome)
  extractEpub : Bytes → Except String Str
  create : Manuscript → Except String String

/-- The fetch stage: `requests.get` inside `try`.  A transport failure, and
also the `HTTPException` raised for a non-200 status (it is an `Exception`
and the bare `except Exception` catches and re-wraps it), surface as a
400 fetch error. -/
def fetchContent (env : Env) (url : Str) : Except PipeError Bytes :=
  match env.fetch url with
  | .error e => .error (.fetchError ("Error fetching document: " ++ e))
  | .ok (status, content) =>
    if status ≠ 200 then
      .error (.fetchError ("Error fetching document: Failed to fetch document: HTTP " ++
        toString status))
    else .ok content

/-- The extraction dispatch: the `if fmt == ... elif ... else raise` chain
inside `try`, with `except HTTPException: raise` keeping the 400 for an
unsupported tag and `except Exception` wrapping a library failure as a 500
extraction error. -/
def extractFor (env : Env) (fmt : Str) (content : Bytes) : Except PipeError Str :=
  if fmt = str "docx" then
    match env.extractDocx content with
    | .ok t => .ok t
    | .error e => .error (.extractionError fmt e)
  else if fmt = str "pdf" then
    match env.pdfPages content with
    | .ok pages => .ok (_extract_pdf pages)
    | .error e => .error (.extractionError fmt e)
  else if fmt = str "epub" then
    match env.extractEpub content with
    | .ok t => .ok t
    | .error e => .error (.extractionError fmt e)
  else if fmt = str "md" then .ok (_extract_md content)
  else .error (.unsupportedFormat fmt)

deriving instance DecidableEq for Except

/-- What one call of the endpoint does: its response or classified error,
the records handed to `create`, and the records the store reports written. -/
structure IngestOut where
  result : Except PipeError IngestResp
  createCalls : List Manuscript
  persisted : List Manuscript

/-- The `Manuscript(...)` record assembled from the analysis results:
`toc or None` and `sample_text or None` replace falsy (empty) values by
`None`, `word_count = len(full_text.split())`. -/
def buildRecord (req : IngestReq) (fmt : Str) (full_text : Str) : Manuscript :=
  { source_url := req.source_url, format := fmt, title := req.title,
    subtitle := req.subtitle, cover_url := req.cover_url,
    toc := if (_extract_toc_from_text full_text).isEmpty then none
           else some (_extract_toc_from_text full_text),
    sample_text := if (_make_sample full_text).isEmpty then none
                   else some (_make_sample full_text),
    word_count := (pyWords full_text).length }

/-- `ingest_manuscript(req)` of src/main.py. -/
def ingest (env : Env) (req : IngestReq) : IngestOut :=
  let fmt := _infer_format req.source_url req.format
  match fetchContent env req.source_url with
  | .error e => ⟨.error e, [], []⟩
  | .ok content =>
    match extractFor env fmt content with
    | .error e => ⟨.error e, [], []⟩
    | .ok full_text =>
      match env.create (buildRecord req fmt full_text) with
      | .error e =>
        ⟨.error (.persistError ("Failed to save manuscript: " ++ e)),
          [buildRecord req fmt full_text], []⟩
      | .ok doc_id =>
        ⟨.ok { id := doc_id, format := fmt,
               word_count := (pyWords full_text).length,
               toc := (_extract_toc_from_text full_text).take 10 },
          [buildRecord req fmt full_text], [buildRecord req fmt full_text]⟩

/-- The word count of a successful response, `none` on failure. -/
def resultWordCount (out : IngestOut) : Option Nat :=
  match out.result with
  | .ok r => some r.word_count
  | .error _ => none

/-! ### Concrete environments and requests used by witnesses -/

/-- The scenario input of the design document: `"# Title\n\nHello world foo"`
as bytes. -/
def mdScenarioBytes : Bytes := (str "# Title\n\nHello world foo").map Char.toNat

/-- A request with an explicit `md` hint. -/
def reqMd : IngestReq :=
  { source_url := str "http://example.com/book", format := some (str "md"),
    cover_url := none, title := none, subtitle := none }

/-- Every collaborator cooperates: the fetch returns the scenario bytes with
status 200 and the store accepts the record. -/
def envGood : Env :=
  { fetch := fun _ => .ok (200, mdScenarioBytes),
    extractDocx := fun _ => .error "docx backend unavailable",
    pdfPages := fun _ => .error "pdf backend unavailable",
    extractEpub := fun _ => .error "epub backend unavailable",
    create := fun _ => .ok "id-1" }

/-- The fetch fails at transport level. -/
def envNoFetch : Env :=
  { envGood with fetch := fun _ => .error "connection refused" }

/-- The record `ingest envGood reqMd` persists. -/
def mdManuscript : Manuscript :=
  { source_url := str "http://example.com/book", format := str "md",
    title := none, subtitle := none, cover_url := none,
    toc := some [str "# Title", str "Hello world foo"],
    sample_text := some (str "# Title Hello world foo"),
    word_count := 5 }

example : (ingest envGood reqMd).persisted = [mdManuscript] := by decide
example : resultWordCount (ingest envGood reqMd) = some 5 := by decide
example : (ingest envNoFetch reqMd).result =
    .error (.fetchError "Error fetching document: connection refused") := by decide
example : (ingest envNoFetch reqMd).createCalls = [] := by decide

/-! ## Spec-side definitions for the refinement claims -/

/-- Modelled from the claim's URL rules, first match wins: `.docx` substring,
`/export?format=docx` substring, ends `.pdf` or contains `format=pdf`, ends
`.epub`, ends `.md` or contains `raw.githubusercontent.com`, default `docx`. -/
def specUrlRules (url : Str) : Str :=
  let u := pyLower url
  if strContains u (str ".docx") then str "docx"
  else if strContains u (str "/export?format=docx") then str "docx"
  else if strEndsWith u (str ".pdf") || strContains u (str "format=pdf") then str "pdf"
  else if strEndsWith u (str ".epub") then str "epub"
  else if strEndsWith u (str ".md") || strContains u (str "raw.githubusercontent.com")
    then str "md"
  else str "docx"

/-- The amended detection contract: a present NON-EMPTY hint is lower-cased
and returned verbatim; an absent or empty hint falls through to the URL
rules. -/
def specDetect (url : Str) (hint : Option Str) : Str :=
  match hint with
  | some h => if h.isEmpty then specUrlRules url else pyLower h
  | none => specUrlRules url

/-- Modelled from the claim's words, the qualifying test with a plain
"starts with chapter/part/section" prefix rule (no word boundary). -/
def specTocQualClaim (l : Str) : Bool :=
  (decide (3 ≤ l.length) && decide (l.length ≤ 80)) && !endsInSentencePunct l &&
    (pyIsUpper l || (str "chapter").isPrefixOf (pyLower l) ||
      (str "part").isPrefixOf (pyLower l) || (str "section").isPrefixOf (pyLower l) ||
      decide ((pyWords l).length ≤ 6))

/-- The amended qualifying test: the keyword must be followed by a word
boundary (end of line or a character that is not a letter, digit or
underscore), as the code's regex `\b` requires. -/
def specTocQualAmended (l : Str) : Bool :=
  (decide (3 ≤ l.length) && decide (l.length ≤ 80)) && !endsInSentencePunct l &&
    (pyIsUpper l || hasWordStart (pyLower l) (str "chapter") ||
      hasWordStart (pyLower l) (str "part") || hasWordStart (pyLower l) (str "section") ||
      decide ((pyWords l).length ≤ 6))

/-- Modelled from the claim's words: split into non-empty trimmed lines, scan
at most the first 800, collect qualifying lines, stop at 30. -/
def specTocCandidatesClaim (t : Str) : List Str :=
  tocScanP specTocQualClaim ((((splitLines t).map pyStrip).filter
    (fun l => !l.isEmpty)).take 800) 30

/-- The amended collection: the same scan with the word-boundary prefix rule. -/
def specTocCandidatesAmended (t : Str) : List Str :=
  tocScanP specTocQualAmended ((((splitLines t).map pyStrip).filter
    (fun l => !l.isEmpty)).take 800) 30

/-- The input separating the claim's prefix rule from the code's regex: it
starts with "chapter" but with no word boundary after it, and has more than
six words. -/
def boundaryCexLine : Str := str "chapterhouse a b c d e f g"

example : tocCandidates boundaryCexLine = [] := by decide
example : specTocCandidatesClaim boundaryCexLine = [boundaryCexLine] := by decide
example : specTocCandidatesAmended boundaryCexLine = [] := by decide
example : specDetect (str "http://x/a.pdf") (some []) = str "pdf" := by decide

example : pyWords (str "  a bc  d ") = [str "a", str "bc", str "d"] := by decide

/-! ## Lemmas about the whitespace tokenizer -/

/-- A token `str.split()` can produce: non-empty and whitespace-free. -/
def IsToken (w : Str) : Prop := w ≠ [] ∧ ∀ c ∈ w, pyIsSpace c = false

theorem words_cons_space {c : Char} (hc : pyIsSpace c = true) (rest : Str) :
    pyWords (c :: rest) = pyWords rest := by
  simp [pyWords, hc]

theorem words_singleton {c : Char} (hc : pyIsSpace c = false) : pyWords [c] = [[c]] := by
  simp [pyWords, hc]

theorem words_cons_space_snd {c r : Char} (hc : pyIsSpace c = false)
    (hr : pyIsSpace r = true) (rest : Str) :
    pyWords (c :: r :: rest) = [c] :: pyWords (r :: rest) := by
  simp [pyWords, hc, hr]

/-- One unfolding step of `pyWords`, as an equation usable without unfolding
the inner occurrences. -/
theorem words_cons_eq (c : Char) (rest : Str) :
    pyWords (c :: rest) =
      if pyIsSpace c then pyWords rest
      else
        match rest with
        | [] => [[c]]
        | r :: _ =>
          if pyIsSpace r then [c] :: pyWords rest
          else
            match pyWords rest with
            | [] => [[c]]
            | w :: ws => (c :: w) :: ws := rfl

theorem words_cons_ne_nil {c : Char} (hc : pyIsSpace c = false) (rest : Str) :
    pyWords (c :: rest) ≠ [] := by
  cases rest with
  | nil => simp [words_cons_eq, hc]
  | cons r rest2 =>
    rw [words_cons_eq]
    by_cases hr : pyIsSpace r
    · simp [hc, hr]
    · rw [Bool.not_eq_true] at hr
      simp only [hc, hr, Bool.false_eq_true, if_false]
      cases pyWords (r :: rest2) <;> simp

theorem words_cons_cons {c r : Char} {rest2 w : Str} {ws : List Str}
    (hc : pyIsSpace c = false) (hr : pyIsSpace r = false)
    (h : pyWords (r :: rest2) = w :: ws) :
    pyWords (c :: r :: rest2) = (c :: w) :: ws := by
  rw [words_cons_eq]
  simp only [hc, hr, Bool.false_eq_true, if_false, h]

theorem words_mem (t : Str) : ∀ w ∈ pyWords t, IsToken w := by
  induction t with
  | nil => simp [pyWords]
  | cons c rest ih =>
    intro w hw
    by_cases hc : pyIsSpace c
    · rw [words_cons_space hc] at hw
      exact ih w hw
    · rw [Bool.not_eq_true] at hc
      cases rest with
      | nil =>
        simp [pyWords, hc] at hw
        subst hw
        exact ⟨List.cons_ne_nil c [], by simpa using hc⟩
      | cons r rest2 =>
        by_cases hr : pyIsSpace r
        · rw [words_cons_space_snd hc hr] at hw
          rcases List.mem_cons.mp hw with h1 | h2
          · subst h1
            exact ⟨List.cons_ne_nil c [], by simpa using hc⟩
          · exact ih w h2
        · rw [Bool.not_eq_true] at hr
          obtain ⟨w0, ws0, hws⟩ := List.exists_cons_of_ne_nil (words_cons_ne_nil hr rest2)
          rw [words_cons_cons hc hr hws] at hw
          rcases List.mem_cons.mp hw with h1 | h2
          · subst h1
            have h0 : IsToken w0 := ih w0 (hws ▸ List.mem_cons_self w0 ws0)
            refine ⟨List.cons_ne_nil c w0, ?_⟩
            intro x hx
            rcases List.mem_cons.mp hx with h3 | h4
            · subst h3; exact hc
            · exact h0.2 x h4
          · exact ih w (hws ▸ List.mem_cons_of_mem w0 h2)

theorem words_of_token {w : Str} (h : IsToken w) : pyWords w = [w] := by
  induction w with
  | nil => exact absurd rfl h.1
  | cons a w' ih =>
    have ha : pyIsSpace a = false := h.2 a (List.mem_cons_self a w')
    cases w' with
    | nil => exact words_singleton ha
    | cons b w'' =>
      have hb : pyIsSpace b = false := h.2 b (List.mem_cons_of_mem a (List.mem_cons_self b w''))
      have hw' : IsToken (b :: w'') :=
        ⟨List.cons_ne_nil b w'', fun c hc => h.2 c (List.mem_cons_of_mem a hc)⟩
      exact words_cons_cons ha hb (ih hw')

theorem words_token_append {w : Str} (h : IsToken w) (rest : Str) :
    pyWords (w ++ ' ' :: rest) = w :: pyWords rest := by
  induction w with
  | nil => exact absurd rfl h.1
  | cons a w' ih =>
    have ha : pyIsSpace a = false := h.2 a (List.mem_cons_self a w')
    cases w' with
    | nil =>
      rw [List.cons_append, List.nil_append,
        words_cons_space_snd ha (by decide) rest, words_cons_space (by decide) rest]
    | cons b w'' =>
      have hb : pyIsSpace b = false := h.2 b (List.mem_cons_of_mem a (List.mem_cons_self b w''))
      have hw' : IsToken (b :: w'') :=
        ⟨List.cons_ne_nil b w'', fun c hc => h.2 c (List.mem_cons_of_mem a hc)⟩
      have := ih hw'
      rw [List.cons_append] at *
      exact words_cons_cons ha hb this

theorem words_joinSpace {ws : List Str} (h : ∀ w ∈ ws, IsToken w) :
    pyWords (joinSpace ws) = ws := by
  induction ws with
  | nil => rfl
  | cons w ws' ih =>
    cases ws' with
    | nil => exact words_of_token (h w (List.mem_cons_self w []))
    | cons v t =>
      have hjoin : joinSpace (w :: v :: t) = w ++ ' ' :: joinSpace (v :: t) := rfl
      rw [hjoin, words_token_append (h w (List.mem_cons_self w (v :: t)))]
      rw [ih (fun x hx => h x (List.mem_cons_of_mem w hx))]

theorem words_append_trailing_space {c : Char} (hc : pyIsSpace c = true) :
    ∀ l : Str, pyWords (l ++ [c]) = pyWords l := by
  intro l
  induction l with
  | nil => simp [pyWords, hc]
  | cons a l' ih =>
    by_cases ha : pyIsSpace a
    · rw [List.cons_append, words_cons_space ha, words_cons_space ha]
      exact ih
    · rw [Bool.not_eq_true] at ha
      cases l' with
      | nil =>
        rw [words_singleton ha, List.cons_append, List.nil_append,
          words_cons_space_snd ha hc, words_cons_space hc]
        rfl
      | cons b l'' =>
        by_cases hb : pyIsSpace b
        · rw [List.cons_append, List.cons_append,
            words_cons_space_snd ha hb (l'' ++ [c]), words_cons_space_snd ha hb l'']
          rw [← List.cons_append, ih]
        · rw [Bool.not_eq_true] at hb
          obtain ⟨w0, ws0, hws⟩ := List.exists_cons_of_ne_nil (words_cons_ne_nil hb l'')
          have hws' : pyWords (b :: (l'' ++ [c])) = w0 :: ws0 := by
            have : pyWords ((b :: l'') ++ [c]) = pyWords (b :: l'') := ih
            rw [List.cons_append] at this
            rw [this, hws]
          rw [List.cons_append, List.cons_append, words_cons_cons ha hb hws',
            words_cons_cons ha hb hws]

theorem words_dropWhile (l : Str) :
    pyWords (l.dropWhile pyIsSpace) = pyWords l := by
  induction l with
  | nil => rfl
  | cons a l' ih =>
    by_cases ha : pyIsSpace a
    · rw [List.dropWhile_cons, if_pos ha, ih, words_cons_space ha]
    · rw [List.dropWhile_cons, if_neg ha]

theorem words_reverse_dropWhile (l : Str) :
    pyWords ((l.dropWhile pyIsSpace).reverse) = pyWords l.reverse := by
  induction l with
  | nil => rfl
  | cons a l' ih =>
    by_cases ha : pyIsSpace a
    · rw [List.dropWhile_cons, if_pos ha, ih, List.reverse_cons,
        words_append_trailing_space ha]
    · rw [List.dropWhile_cons, if_neg ha]

theorem words_pyStrip (l : Str) : pyWords (pyStrip l) = pyWords l := by
  unfold pyStrip
  rw [words_reverse_dropWhile ((l.dropWhile pyIsSpace).reverse), List.reverse_reverse,
    words_dropWhile]

theorem words_makeSample (t : Str) :
    pyWords (_make_sample t) = (pyWords t).take 1200 := by
  unfold _make_sample
  rw [words_pyStrip]
  exact words_joinSpace (fun w hw => words_mem t w (List.take_subset 1200 (pyWords t) hw))

/-! ## Lemmas about the TOC deduplication and scan -/

theorem dedupFirst_sublist : ∀ (l seen : List Str), (dedupFirst seen l).Sublist l := by
  intro l
  induction l with
  | nil => intro seen; exact List.Sublist.refl []
  | cons h t ih =>
    intro seen
    by_cases hs : h ∈ seen
    · rw [dedupFirst, if_pos hs]
      exact (ih seen).cons h
    · rw [dedupFirst, if_neg hs]
      exact (ih (h :: seen)).cons₂ h

theorem dedupFirst_nodup : ∀ (l seen : List Str),
    (dedupFirst seen l).Nodup ∧ ∀ x ∈ dedupFirst seen l, x ∉ seen := by
  intro l
  induction l with
  | nil => intro seen; exact ⟨List.nodup_nil, by simp [dedupFirst]⟩
  | cons h t ih =>
    intro seen
    by_cases hs : h ∈ seen
    · rw [dedupFirst, if_pos hs]
      exact ih seen
    · rw [dedupFirst, if_neg hs]
      obtain ⟨hnd, hout⟩ := ih (h :: seen)
      refine ⟨List.nodup_cons.mpr ⟨?_, hnd⟩, ?_⟩
      · intro hmem
        exact hout h hmem (List.mem_cons_self h seen)
      · intro x hx
        rcases List.mem_cons.mp hx with h1 | h2
        · subst h1; exact hs
        · intro hxs
          exact hout x h2 (List.mem_cons_of_mem h hxs)

theorem tocScanP_congr {p q : Str → Bool} (hpq : ∀ l, p l = q l) :
    ∀ (lines : List Str) (k : Nat), tocScanP p lines k = tocScanP q lines k := by
  intro lines
  induction lines with
  | nil => intro k; cases k <;> rfl
  | cons l ls ih =>
    intro k
    cases k with
    | zero => rfl
    | succ k' =>
      rw [tocScanP, tocScanP, hpq l]
      by_cases hq : q l
      · rw [if_pos hq, if_pos hq, ih k']
      · rw [if_neg hq, if_neg hq, ih (k' + 1)]

/-! ## Lemmas about the PDF page loop -/

theorem pdfPageTexts_eq_filterMap : ∀ pages : List PageOutcome,
    pdfPageTexts pages = pages.filterMap fun p =>
      match p with
      | .ok t => some (t.getD [])
      | .error _ => none := by
  intro pages
  induction pages with
  | nil => rfl
  | cons p rest ih =>
    cases p with
    | ok t => simp [pdfPageTexts, List.filterMap_cons, ih]
    | error e => simp [pdfPageTexts, List.filterMap_cons, ih]

/-! ## The ignore-decoder emits a sub-sequence of the replace-decoder -/

/-- One unfolding step of `decodeWith` on a non-empty input. -/
theorem decodeWith_cons_eq (sub : Str) (b : Nat) (bs : Bytes) :
    decodeWith sub (b :: bs) =
      (if b <= 0x7f then Char.ofNat b :: decodeWith sub bs
      else if b < 0xc2 then sub ++ decodeWith sub bs
      else if b <= 0xdf then
        match bs with
        | [] => sub
        | b2 :: bs2 =>
          if isCont b2 then
            Char.ofNat ((b - 0xc0) * 0x40 + (b2 - 0x80)) :: decodeWith sub bs2
          else sub ++ decodeWith sub (b2 :: bs2)
      else if b <= 0xef then
        match bs with
        | [] => sub
        | b2 :: bs2 =>
          if cont3Ok b b2 then
            match bs2 with
            | [] => sub
            | b3 :: bs3 =>
              if isCont b3 then
                Char.ofNat ((b - 0xe0) * 0x1000 + (b2 - 0x80) * 0x40 + (b3 - 0x80)) ::
                  decodeWith sub bs3
              else sub ++ decodeWith sub (b3 :: bs3)
          else sub ++ decodeWith sub (b2 :: bs2)
      else if b <= 0xf4 then
        match bs with
        | [] => sub
        | b2 :: bs2 =>
          if cont4Ok b b2 then
            match bs2 with
            | [] => sub
            | b3 :: bs3 =>
              if isCont b3 then
                match bs3 with
                | [] => sub
                | b4 :: bs4 =>
                  if isCont b4 then
                    Char.ofNat ((b - 0xf0) * 0x40000 + (b2 - 0x80) * 0x1000 +
                        (b3 - 0x80) * 0x40 + (b4 - 0x80)) :: decodeWith sub bs4
                  else sub ++ decodeWith sub (b4 :: bs4)
              else sub ++ decodeWith sub (b3 :: bs3)
          else sub ++ decodeWith sub (b2 :: bs2)
      else sub ++ decodeWith sub bs) := by
  cases bs with
  | nil => rfl
  | cons b2 bs2 =>
    cases bs2 with
    | nil => rfl
    | cons b3 bs3 =>
      cases bs3 with
      | nil => rfl
      | cons b4 bs4 => rfl

theorem decodeWith_sublist_aux : ∀ (n : Nat) (bs : Bytes), bs.length ≤ n →
    ∀ s t : Str, s.Sublist t → (decodeWith s bs).Sublist (decodeWith t bs) := by
  intro n
  induction n with
  | zero =>
    intro bs hbs s t hst
    have : bs = [] := List.eq_nil_of_length_eq_zero (Nat.le_zero.mp hbs)
    subst this
    exact List.Sublist.refl []
  | succ n ih =>
    intro bs hbs s t hst
    cases bs with
    | nil => exact List.Sublist.refl []
    | cons b bs' =>
      have hb' : bs'.length ≤ n := by
        simp only [List.length_cons] at hbs
        omega
      rw [decodeWith_cons_eq, decodeWith_cons_eq]
      split
      · exact (ih bs' hb' s t hst).cons₂ _
      · split
        · exact hst.append (ih bs' hb' s t hst)
        · split
          · -- two-byte leader: match on the tail
            split
            · exact hst
            · rename_i b2 bs2
              have hb2 : bs2.length ≤ n := by
                simp only [List.length_cons] at hb'
                omega
              split
              · exact (ih bs2 hb2 s t hst).cons₂ _
              · exact hst.append (ih (b2 :: bs2) hb' s t hst)
          · split
            · -- three-byte leader
              split
              · exact hst
              · rename_i b2 bs2
                have hb2 : bs2.length ≤ n := by
                  simp only [List.length_cons] at hb'
                  omega
                split
                · split
                  · exact hst
                  · rename_i b3 bs3
                    have hb3 : bs3.length ≤ n := by
                      simp only [List.length_cons] at hb2
                      omega
                    split
                    · exact (ih bs3 hb3 s t hst).cons₂ _
                    · exact hst.append (ih (b3 :: bs3) hb2 s t hst)
                · exact hst.append (ih (b2 :: bs2) hb' s t hst)
            · split
              · -- four-byte leader
                split
                · exact hst
                · rename_i b2 bs2
                  have hb2 : bs2.length ≤ n := by
                    simp only [List.length_cons] at hb'
                    omega
                  split
                  · split
                    · exact hst
                    · rename_i b3 bs3
                      have hb3 : bs3.length ≤ n := by
                        simp only [List.length_cons] at hb2
                        omega
                      split
                      · split
                        · exact hst
                        · rename_i b4 bs4
                          have hb4 : bs4.length ≤ n := by
                            simp only [List.length_cons] at hb3
                            omega
                          split
                          · exact (ih bs4 hb4 s t hst).cons₂ _
                          · exact hst.append (ih (b4 :: bs4) hb3 s t hst)
                      · exact hst.append (ih (b3 :: bs3) hb2 s t hst)
                  · exact hst.append (ih (b2 :: bs2) hb' s t hst)
              · exact hst.append (ih bs' hb' s t hst)
example : splitLines (str "a\r\nb\n\nc\n") = [str "a", str "b", str "", str "c"] := by
  decide
example : strContains (str "abcd") (str "bc") = true := by decide
example : strContains (str "abcd") (str "") = true := by decide
example : strContains (str "abcd") (str "ca") = false := by decide
example : strEndsWith (str "a.pdf") (str ".pdf") = true := by decide
example : pyStrip (str "  a b ") = str "a b" := by decide
example : joinSpace [str "a", str "bc"] = str "a bc" := by decide
example : _infer_format (str "http://x/A.PDF") none = str "pdf" := by decide
example : _infer_format (str "http://x/a.pdf") (some (str "EPUB")) = str "epub" := by
  decide
example : _infer_format (str "http://x/a.pdf") (some []) = str "pdf" := by decide
example : _infer_format (str "https://raw.githubusercontent.com/u/r/b/f") none =
    str "md" := by decide
example : _infer_format (str "http://x/plain") none = str "docx" := by decide
example : _infer_format (str "http://d/export?format=docx&id=1") none = str "docx" := by
  decide
example : tocQualifies (str "Chapter 1: The deluge of words in this line") = true := by
  decide
example : tocQualifies (str "chapters one two three four five six seven") = false := by
  decide
example : tocQualifies (str "A SHOUTED LINE WITH MANY WORDS IN IT HERE YES") = true := by
  decide
example : tocQualifies (str "Too short ends badly.") = false := by decide
example : tocQualifies (str "ab") = false := by decide
example : _extract_toc_from_text (str "# Title\n\nHello world foo") =
    [str "# Title", str "Hello world foo"] := by decide
example : _make_sample (str "# Title\n\nHello world foo") =
    str "# Title Hello world foo" := by decide
example : _extract_md [0x68, 0x69] = str "hi" := by decide
example : _extract_md [0x68, 0xff, 0x69] = str "hi" := by decide
example : specDecodeReplace [0x68, 0xff, 0x69] = ['h', Char.ofNat 0xfffd, 'i'] := by
  decide
example : _extract_md [0xc3, 0xa9] = ['é'] := by decide
example : _extract_md [0xc2, 0x41] = str "A" := by decide
example : _extract_md [0xe2, 0x82, 0xac] = ['€'] := by decide
example : _extract_md [0xe0, 0x80, 0x41] = str "A" := by decide
example : _extract_md [0xed, 0xa0, 0x80] = [] := by decide
example : specDecodeReplace [0xed, 0xa0, 0x80] =
    [Char.ofNat 0xfffd, Char.ofNat 0xfffd, Char.ofNat 0xfffd] := by decide
example : _extract_md [0xf0, 0x9f, 0x98, 0x80] = [Char.ofNat 0x1f600] := by decide
example : _extract_md [0xc3] = [] := by decide
example : _extract_pdf [.ok (some (str "a")), .error "boom", .ok (some (str "b"))] =
    str "a\n\nb" := by decide
example : specPdfEmptyContribution
    [.ok (some (str "a")), .error "boom", .ok (some (str "b"))] = str "a\n\n\n\nb" := by
  decide
example : _extract_pdf [.ok none, .ok (some (str "x"))] = str "\n\nx" := by decide

/-! ## The code qualifier agrees with the amended spec qualifier -/

theorem tocQualifies_eq_amended (l : Str) : tocQualifies l = specTocQualAmended l := by
  simp only [tocQualifies, specTocQualAmended, matchesHeadingKeyword]
  cases h1 : pyIsUpper l <;>
    cases h2 : hasWordStart (pyLower l) (str "chapter") <;>
      cases h3 : hasWordStart (pyLower l) (str "part") <;>
        cases h4 : hasWordStart (pyLower l) (str "section") <;>
          cases h5 : endsInSentencePunct l <;>
            cases h6 : decide (l.length ≤ 80) <;>
              cases h7 : decide (3 ≤ l.length) <;>
                cases h8 : decide ((pyWords l).length ≤ 6) <;> rfl

/-! ## Orchestrator lemmas -/

theorem ingest_fetch_error {env : Env} {req : IngestReq} {e : PipeError}
    (hf : fetchContent env req.source_url = .error e) :
    ingest env req = ⟨.error e, [], []⟩ := by
  simp only [ingest, hf]

theorem ingest_extract_error {env : Env} {req : IngestReq} {content : Bytes}
    {e : PipeError} (hf : fetchContent env req.source_url = .ok content)
    (hx : extractFor env (_infer_format req.source_url req.format) content = .error e) :
    ingest env req = ⟨.error e, [], []⟩ := by
  simp only [ingest, hf, hx]

theorem ingest_create_error {env : Env} {req : IngestReq} {content : Bytes}
    {full_text : Str} {e : String}
    (hf : fetchContent env req.source_url = .ok content)
    (hx : extractFor env (_infer_format req.source_url req.format) content = .ok full_text)
    (hc : env.create (buildRecord req (_infer_format req.source_url req.format) full_text) =
      .error e) :
    ingest env req = ⟨.error (.persistError ("Failed to save manuscript: " ++ e)),
      [buildRecord req (_infer_format req.source_url req.format) full_text], []⟩ := by
  simp only [ingest, hf, hx, hc]

theorem ingest_success {env : Env} {req : IngestReq} {content : Bytes}
    {full_text : Str} {doc_id : String}
    (hf : fetchContent env req.source_url = .ok content)
    (hx : extractFor env (_infer_format req.source_url req.format) content = .ok full_text)
    (hc : env.create (buildRecord req (_infer_format req.source_url req.format) full_text) =
      .ok doc_id) :
    ingest env req = ⟨.ok
      { id := doc_id, format := _infer_format req.source_url req.format,
        word_count := (pyWords full_text).length,
        toc := (_extract_toc_from_text full_text).take 10 },
      [buildRecord req (_infer_format req.source_url req.format) full_text],
      [buildRecord req (_infer_format req.source_url req.format) full_text]⟩ := by
  simp only [ingest, hf, hx, hc]

/-! ## Claim theorems -/

/-- C1: every record an ingestion persists carries `word_count` equal to the
number of whitespace-delimited tokens of the full extracted text, computed
with the same `pyWords` split `_make_sample` uses, independent of the
sample's truncation: the sample's own token count is `min word_count 1200`. -/
theorem ingest_word_count_full_tokens (env : Env) (req : IngestReq) (m : Manuscript)
    (hm : m ∈ (ingest env req).persisted) :
    ∃ content t, fetchContent env req.source_url = .ok content ∧
      extractFor env (_infer_format req.source_url req.format) content = .ok t ∧
      m.word_count = (pyWords t).length ∧
      m.sample_text = (if (_make_sample t).isEmpty then none
                       else some (_make_sample t)) ∧
      ∀ s, m.sample_text = some s → (pyWords s).length = min m.word_count 1200 := by
  rcases hf : fetchContent env req.source_url with e0 | content0
  · rw [ingest_fetch_error hf] at hm
    simp at hm
  · rcases hx : extractFor env (_infer_format req.source_url req.format) content0
      with e0 | ftext
    · rw [ingest_extract_error hf hx] at hm
      simp at hm
    · rcases hc : env.create
        (buildRecord req (_infer_format req.source_url req.format) ftext) with e0 | id0
      · rw [ingest_create_error hf hx hc] at hm
        simp at hm
      · rw [ingest_success hf hx hc] at hm
        simp only [List.mem_singleton] at hm
        subst hm
        refine ⟨content0, ftext, rfl, hx, rfl, rfl, ?_⟩
        intro s hs
        simp only [buildRecord] at hs
        by_cases hemp : (_make_sample ftext).isEmpty
        · rw [if_pos hemp] at hs
          simp at hs
        · rw [if_neg hemp] at hs
          injection hs with h
          subst h
          show (pyWords (_make_sample ftext)).length =
            min (buildRecord req (_infer_format req.source_url req.format)
              ftext).word_count 1200
          simp only [buildRecord]
          rw [words_makeSample, List.length_take, Nat.min_comm]

/-- C1 witness: the md scenario persists exactly `mdManuscript`, whose
`word_count` is the full token count. -/
theorem ingest_word_count_full_tokens_witness :
    ∃ content t, fetchContent envGood reqMd.source_url = .ok content ∧
      extractFor envGood (_infer_format reqMd.source_url reqMd.format) content = .ok t ∧
      mdManuscript.word_count = (pyWords t).length ∧
      mdManuscript.sample_text = (if (_make_sample t).isEmpty then none
                                  else some (_make_sample t)) ∧
      ∀ s, mdManuscript.sample_text = some s →
        (pyWords s).length = min mdManuscript.word_count 1200 :=
  ingest_word_count_full_tokens envGood reqMd mdManuscript (by decide)

/-- C2 counterexample: a present but empty hint (`format = ""`) is falsy for
Python's `if hint:`, so `_infer_format` falls through to the URL rules and
returns `"pdf"`, not the lower-cased hint (the empty string) the claim
requires. -/
theorem infer_format_empty_hint_cex :
    _infer_format (str "http://x/a.pdf") (some []) = str "pdf" ∧
      _infer_format (str "http://x/a.pdf") (some []) ≠ pyLower [] := by decide

/-- C2 (amended): detection is total; a present NON-EMPTY hint is lower-cased
and returned verbatim regardless of the URL; an absent or empty hint falls
through to the first-match-wins URL rules, whose outcome is always one of
the four tags (default `docx`). -/
theorem infer_format_matches_amended_spec (url : Str) (hint : Option Str) :
    _infer_format url hint = specDetect url hint ∧
      specUrlRules url ∈ [str "docx", str "pdf", str "epub", str "md"] := by
  constructor
  · rcases hint with _ | h
    · rfl
    · rcases h with _ | ⟨c, h2⟩
      · rfl
      · rfl
  · simp only [specUrlRules]
    split_ifs <;> decide

/-- C3: the TOC produced by `_extract_toc_from_text` has at most 20 entries,
no duplicate strings, and is an order-preserving subsequence of the scanned
candidates (first occurrences kept). -/
theorem extract_toc_bounded_nodup (t : Str) :
    (_extract_toc_from_text t).length ≤ 20 ∧ (_extract_toc_from_text t).Nodup ∧
      (_extract_toc_from_text t).Sublist (tocCandidates t) := by
  unfold _extract_toc_from_text
  refine ⟨List.length_take_le 20 _, ?_, ?_⟩
  · exact List.Nodup.sublist (List.take_sublist 20 _)
      (dedupFirst_nodup (tocCandidates t) []).1
  · exact (List.take_sublist 20 _).trans (dedupFirst_sublist (tocCandidates t) [])

/-- C4 counterexample: the claim's plain "starts with chapter/part/section"
prefix rule would collect `"chapterhouse a b c d e f g"`, but the code's
regex requires a `\b` word boundary after the keyword, so the line (eight
words, not upper-case) is not collected. -/
theorem toc_collection_claim_cex :
    tocCandidates boundaryCexLine = [] ∧
      specTocCandidatesClaim boundaryCexLine = [boundaryCexLine] ∧
      tocCandidates boundaryCexLine ≠ specTocCandidatesClaim boundaryCexLine := by
  decide

/-- C4 (amended): the collection phase proceeds exactly as the claim states,
with the prefix rule amended to require a word boundary after the keyword:
non-empty trimmed lines, first 800 scanned, a line collected iff its length
is in [3, 80], it does not end in '.', '!' or '?', and it is entirely
upper-case, or starts with chapter/part/section followed by a word boundary
(case-insensitive), or has at most 6 whitespace-delimited words; the scan
stops at 30 collected lines. -/
theorem toc_collection_matches_amended_spec (t : Str) :
    tocCandidates t = specTocCandidatesAmended t := by
  unfold tocCandidates specTocCandidatesAmended tocLines
  exact tocScanP_congr tocQualifies_eq_amended _ 30

/-- C5: `_make_sample` never fails and is exactly: split on whitespace, take
the first 1200 tokens, rejoin with single spaces, strip; its result has at
most 1200 whitespace-delimited tokens. -/
theorem make_sample_steps_and_bound (t : Str) :
    _make_sample t = pyStrip (joinSpace ((pyWords t).take 1200)) ∧
      (pyWords (_make_sample t)).length ≤ 1200 := by
  refine ⟨rfl, ?_⟩
  rw [words_makeSample]
  exact List.length_take_le 1200 (pyWords t)

/-- C6 counterexample: a page whose extraction raises contributes NOTHING to
the joined result (the loop `continue`s), not the empty string the claim
describes: with pages ok "a", failing, ok "b" the code yields "a\n\nb"
where the claim's reading yields "a\n\n\n\nb". -/
theorem extract_pdf_empty_contribution_cex :
    _extract_pdf pdfCexPages = str "a\n\nb" ∧
      specPdfEmptyContribution pdfCexPages = str "a\n\n\n\nb" ∧
      _extract_pdf pdfCexPages ≠ specPdfEmptyContribution pdfCexPages := by decide

/-- C6 (amended): PDF extraction processes at most the first 50 pages; a
failure extracting an individual page is caught and that page is skipped,
contributing nothing (the pipeline continues); the texts of the
successfully read pages are joined by a blank line. -/
theorem extract_pdf_skips_failed_pages (pages : List PageOutcome) :
    _extract_pdf pages = specPdfSkipFailed pages ∧
      _extract_pdf pages = _extract_pdf (pages.take 50) := by
  constructor
  · unfold _extract_pdf specPdfSkipFailed
    rw [pdfPageTexts_eq_filterMap]
  · unfold _extract_pdf
    simp [List.take_take]

/-- C7 counterexample: `_extract_md` decodes with `errors="ignore"`, which
DROPS an invalid byte, while the claim's "replaces invalid byte sequences"
strategy (`errors="replace"`) emits U+FFFD: the two differ on input 0xFF. -/
theorem extract_md_replace_cex :
    _extract_md [0xff] = [] ∧ specDecodeReplace [0xff] = [Char.ofNat 0xfffd] ∧
      _extract_md [0xff] ≠ specDecodeReplace [0xff] := by decide

/-- C7 (amended): markdown extraction decodes the bytes as UTF-8 with a lossy
strategy that IGNORES (drops) invalid byte sequences rather than failing —
never raising on malformed encoding — so its output is the replace-strategy
decoding with the replacement characters omitted: a sub-sequence of it. -/
theorem extract_md_lossy_ignore (bs : Bytes) :
    (_extract_md bs).Sublist (specDecodeReplace bs) :=
  decodeWith_sublist_aux bs.length bs le_rfl [] [Char.ofNat 0xfffd]
    (List.nil_sublist _)

/-- C8: if any pipeline stage fails — the fetch, the extraction dispatch, or
the persistence write — the classified error originating there is surfaced
as the result and nothing is persisted; `create` is invoked at most once,
and only after the fetch and extraction stages succeeded. -/
theorem ingest_failure_isolation (env : Env) (req : IngestReq) :
    ((ingest env req).result.isOk = false → (ingest env req).persisted = []) ∧
      (ingest env req).createCalls.length ≤ 1 ∧
      ((ingest env req).createCalls ≠ [] →
        ∃ content t, fetchContent env req.source_url = .ok content ∧
          extractFor env (_infer_format req.source_url req.format) content = .ok t) ∧
      (∀ e, fetchContent env req.source_url = .error e →
        (ingest env req).result = .error e) ∧
      (∀ content e, fetchContent env req.source_url = .ok content →
        extractFor env (_infer_format req.source_url req.format) content = .error e →
        (ingest env req).result = .error e) ∧
      (∀ content ft e, fetchContent env req.source_url = .ok content →
        extractFor env (_infer_format req.source_url req.format) content = .ok ft →
        env.create (buildRecord req (_infer_format req.source_url req.format) ft) =
          .error e →
        (ingest env req).result =
            .error (.persistError ("Failed to save manuscript: " ++ e)) ∧
          (ingest env req).persisted = []) := by
  rcases hf : fetchContent env req.source_url with e0 | content0
  · rw [ingest_fetch_error hf]
    refine ⟨fun _ => rfl, by simp, by simp, ?_, ?_, ?_⟩
    · intro e he
      injection he with h
      subst h
      rfl
    · intro content e hco hxo
      simp at hco
    · intro content ft e hco hxo hce
      simp at hco
  · rcases hx : extractFor env (_infer_format req.source_url req.format) content0
      with e0 | ftext
    · rw [ingest_extract_error hf hx]
      refine ⟨fun _ => rfl, by simp, by simp, ?_, ?_, ?_⟩
      · intro e he
        simp at he
      · intro content e hco hxo
        injection hco with h
        subst h
        rw [hx] at hxo
        injection hxo with h2
        subst h2
        rfl
      · intro content ft e hco hxo hce
        injection hco with h
        subst h
        rw [hx] at hxo
        simp at hxo
    · rcases hc : env.create
        (buildRecord req (_infer_format req.source_url req.format) ftext) with e0 | id0
      · rw [ingest_create_error hf hx hc]
        refine ⟨fun _ => rfl, by simp, ?_, ?_, ?_, ?_⟩
        · intro _
          exact ⟨content0, ftext, rfl, hx⟩
        · intro e he
          simp at he
        · intro content e hco hxo
          injection hco with h
          subst h
          rw [hx] at hxo
          simp at hxo
        · intro content ft e hco hxo hce
          injection hco with h
          subst h
          rw [hx] at hxo
          injection hxo with h2
          subst h2
          rw [hc] at hce
          injection hce with h3
          subst h3
          exact ⟨rfl, rfl⟩
      · rw [ingest_success hf hx hc]
        refine ⟨?_, by simp, ?_, ?_, ?_, ?_⟩
        · intro h
          simp [Except.isOk, Except.toBool] at h
        · intro _
          exact ⟨content0, ftext, rfl, hx⟩
        · intro e he
          simp at he
        · intro content e hco hxo
          injection hco with h
          subst h
          rw [hx] at hxo
          simp at hxo
        · intro content ft e hco hxo hce
          injection hco with h
          subst h
          rw [hx] at hxo
          injection hxo with h2
          subst h2
          rw [hc] at hce
          simp at hce

/-- C9 counterexample: on hint "md" and content bytes
`"# Title\n\nHello world foo"` the pipeline's `word_count` is 5 — the
whitespace tokens are `#`, `Title`, `Hello`, `world`, `foo` — not the 4 the
claim states. -/
theorem md_scenario_word_count_cex :
    resultWordCount (ingest envGood reqMd) = some 5 ∧
      resultWordCount (ingest envGood reqMd) ≠ some 4 := by decide

/-- C9 (amended): for hint "md" and content bytes
`"# Title\n\nHello world foo"`, the pipeline's `word_count` equals 5, tokens
being split purely on whitespace so `#` counts as a token. -/
theorem md_scenario_word_count_five :
    resultWordCount (ingest envGood reqMd) = some 5 ∧
      (pyWords (_extract_md mdScenarioBytes)).length = 5 := by decide

/-- C10: the token sequence of `_make_sample t` is exactly the first
`min word_count 1200` tokens of `t`; its length is `min word_count 1200`,
and the sample is empty exactly when `word_count` is 0. -/
theorem sample_tokens_are_first_1200 (t : Str) :
    pyWords (_make_sample t) = (pyWords t).take 1200 ∧
      (pyWords (_make_sample t)).length = min (pyWords t).length 1200 ∧
      (_make_sample t = [] ↔ (pyWords t).length = 0) := by
  refine ⟨words_makeSample t, ?_, ?_⟩
  · rw [words_makeSample, List.length_take, Nat.min_comm]
  · constructor
    · intro h
      have h2 : (pyWords t).take 1200 = [] := by
        rw [← words_makeSample, h]
        rfl
      rcases List.take_eq_nil_iff.mp h2 with h3 | h3
      · exact absurd h3 (by decide)
      · rw [h3]
        rfl
    · intro h
      have h3 : pyWords t = [] := List.length_eq_zero.mp h
      unfold _make_sample
      rw [h3]
      rfl
